import Mathlib

/-!
Verification of the resource fetcher (ambassador/config/resourcefetcher.py).

The development shallowly embeds the parts of the fetcher that the checked
properties are about: the per-port target resolution of the finalize pass,
the Kubernetes Endpoints decoder, the Kubernetes Service decoder, the Consul
service decoder, application-object processing (process_object and the
parse_object batch loop), and the finalize pass over the side tables.

Python dictionaries are modelled as insertion-ordered association lists
(updates keep the original position of the key, new keys append at the end,
exactly as Python dicts behave). Python values that can be either strings
or integers, with Python truthiness, are modelled by PVal. Python
exceptions (the KeyError raised by a subscript on a missing key) are
modelled with Except.
-/

namespace RF

/-- A Python-ish scalar value as it occurs in the YAML and JSON field bags
processed by the fetcher: an integer or a string. -/
inductive PVal where
  | vint : Int → PVal
  | vstr : String → PVal
deriving DecidableEq, Repr

/-- Python truthiness of a PVal: 0 and the empty string are falsy. -/
def PVal.truthy : PVal → Bool
  | .vint n => n != 0
  | .vstr s => s != ""

/-- Python str() of a PVal. -/
def PVal.toStr : PVal → String
  | .vint n => toString n
  | .vstr s => s

/-- Python str.isdigit for the strings that occur here: nonempty and made
of decimal digits only. -/
def strIsDigit (s : String) : Bool :=
  !s.isEmpty && s.data.all Char.isDigit

/-- Python str.upper for the protocol strings compared here. -/
def strUpper (s : String) : String :=
  String.mk (s.data.map Char.toUpper)

/-- Python truthiness of a possibly-missing value (dict.get result). -/
def pyTruthy : Option PVal → Bool
  | some v => v.truthy
  | none => false

/-- Python truthiness of a possibly-missing integer (dict.get result). -/
def pyTruthyInt : Option Int → Bool
  | some n => n != 0
  | none => false

/-- Lookup in an insertion-ordered association list (Python dict get). -/
def lookupA {α β : Type} [DecidableEq α] : List (α × β) → α → Option β
  | [], _ => none
  | (k, v) :: t, k' => if k = k' then some v else lookupA t k'

/-- Insert into an insertion-ordered association list, Python-dict style:
an existing key keeps its position and gets the new value, a new key is
appended at the end. -/
def insertA {α β : Type} [DecidableEq α] : List (α × β) → α → β → List (α × β)
  | [], k, v => [(k, v)]
  | (k', v') :: t, k, v => if k' = k then (k, v) :: t else (k', v') :: insertA t k v

/-- Fold a list of key-value pairs into an association list by insertA. -/
def insertKVs {α β : Type} [DecidableEq α] (l : List (α × β)) (kvs : List (α × β)) :
    List (α × β) :=
  kvs.foldl (fun acc kv => insertA acc kv.1 kv.2) l

/-!
Port resolution core of finalize (resourcefetcher.py lines 712-771).

A Kubernetes service port spec carries up to three attributes: port (the
source-facing port), name, and targetPort. The endpoint port map built by
the Endpoints decoder maps string keys to integer target ports.
-/

/-- One entry of the Kubernetes service spec.ports list: the three
attributes the finalize pass reads with port.get. -/
structure PortSpec where
  port : Option PVal
  name : Option PVal
  targetPort : Option PVal
deriving DecidableEq, Repr

/-- The finalize pass reads attributes by the literal names in the list
given at line 738 of the source. -/
def PortSpec.getAttr (p : PortSpec) : String → Option PVal
  | "targetPort" => p.targetPort
  | "name" => p.name
  | "port" => p.port
  | _ => none

/-- Python x or y for an optional fallback against a default (line 767,
k8s_target = fallback or src_port). -/
def pyOr (fb : Option PVal) (dflt : PVal) : PVal :=
  match fb with
  | some v => if v.truthy then v else dflt
  | none => dflt

/-- The attribute scan loop of finalize (lines 738-755). State carried
between iterations: found_key, fallback and k8s_target, exactly the three
local variables of the Python loop; a truthy lookup result breaks out of
the loop. -/
def scanAttrs (pd : List (String × Int)) (spec : PortSpec) :
    List String → Bool → Option PVal → Option Int → Bool × Option PVal × Option Int
  | [], fk, fb, kt => (fk, fb, kt)
  | a :: rest, fk, fb, kt =>
    match spec.getAttr a with
    | some pk =>
      if pk.truthy then
        let fb' := if !(pyTruthy fb) && (pk != PVal.vstr "name") && strIsDigit pk.toStr
          then some pk else fb
        let kt' := lookupA pd pk.toStr
        if pyTruthyInt kt' then (true, fb', kt')
        else scanAttrs pd spec rest true fb' kt'
      else scanAttrs pd spec rest fk fb kt
    | none => scanAttrs pd spec rest fk fb kt

/-- Resolution of one service port spec against the endpoint port map
(lines 712-771 of finalize). Returns none when the spec is skipped with a
continue (no truthy source port at line 719, or found_key false at line
757), otherwise the pair (src_port, k8s_target) that finalize stores into
target_ports. -/
def resolveSpec (pd : List (String × Int)) (spec : PortSpec) : Option (PVal × PVal) :=
  match spec.port with
  | none => none
  | some src =>
    if !src.truthy then none
    else
      match pd with
      | [kv] => some (src, PVal.vint kv.2)
      | _ =>
        match scanAttrs pd spec ["targetPort", "name", "port"] false none none with
        | (fk, fb, kt) =>
          if !fk then none
          else
            match kt with
            | some t => if t != 0 then some (src, PVal.vint t) else some (src, pyOr fb src)
            | none => some (src, pyOr fb src)

/-- The target_ports accumulation over the whole spec.ports list of one
service (the for loop at line 712): each resolved spec inserts its pair
into the target_ports dict. -/
def resolvePorts (pd : List (String × Int)) (specs : List PortSpec) :
    List (PVal × PVal) :=
  specs.foldl
    (fun acc spec =>
      match resolveSpec pd spec with
      | some st => insertA acc st.1 st.2
      | none => acc)
    []

/-!
Side-table entry types and the per-service part of finalize.
-/

/-- An address dict as built by the Endpoints decoder (lines 385-410):
the keys that may be present in the addr dict. -/
structure BuiltAddr where
  ip : Option String
  node : Option String
  target_kind : Option String
  target_name : Option String
  target_namespace : Option String
deriving DecidableEq, Repr

/-- Number of keys present in the addr dict (the len(addr) of line 409). -/
def BuiltAddr.size (a : BuiltAddr) : Nat :=
  (if a.ip.isSome then 1 else 0) + (if a.node.isSome then 1 else 0) +
  (if a.target_kind.isSome then 1 else 0) + (if a.target_name.isSome then 1 else 0) +
  (if a.target_namespace.isSome then 1 else 0)

/-- One entry of the k8s_endpoints side table (lines 442-447). -/
structure EpEntry where
  name : String
  nspace : String
  addresses : List BuiltAddr
  ports : List (String × Int)
deriving DecidableEq, Repr

/-- One entry of the k8s_services side table (lines 497-501). -/
structure K8sSvcEntry where
  name : String
  nspace : String
  ports : List PortSpec
deriving DecidableEq, Repr

/-- One ip-port binding of a resolved service endpoint list (lines
796-799). -/
structure EpBinding where
  ip : String
  port : PVal
deriving DecidableEq, Repr

/-- The varying fields of the resolved Ambassador Service resource that
finalize writes into the services table (lines 802-809); apiVersion,
ambassador_id and kind are constants there. -/
structure SvcResource where
  name : String
  nspace : String
  endpoints : List (PVal × List EpBinding)
deriving DecidableEq, Repr

/-- The ip collection loop over the endpoint addresses (lines 780-787):
only truthy ip values are kept. -/
def epAddrIps (addrs : List BuiltAddr) : List String :=
  addrs.filterMap (fun a =>
    match a.ip with
    | some ip => if ip != "" then some ip else none
    | none => none)

/-- The target_addrs value of finalize before the service-routing fallback
(lines 703-787): empty when there is no endpoint entry or its port map is
empty, otherwise the truthy ips of the entry addresses. -/
def serviceTargetAddrs0 (eps : List (String × EpEntry)) (key : String) : List String :=
  match lookupA eps key with
  | none => []
  | some e => if e.ports = [] then [] else epAddrIps e.addresses

/-- The target_addrs value after the service-routing fallback of lines
791-793: an empty list is replaced by the single name.namespace key. -/
def serviceTargetAddrs (eps : List (String × EpEntry)) (key : String) : List String :=
  match serviceTargetAddrs0 eps key with
  | [] => [key]
  | l => l

/-- The target_ports dict computed for one service (empty when there is no
endpoint entry or its port map is empty, lines 706-708, else the per-spec
resolution loop). -/
def serviceTargetPorts (eps : List (String × EpEntry)) (key : String)
    (svc : K8sSvcEntry) : List (PVal × PVal) :=
  match lookupA eps key with
  | none => []
  | some e => if e.ports = [] then [] else resolvePorts e.ports svc.ports

/-- The per-service body of the finalize loop (lines 664-809): the
resolved Service resource built from target_ports and target_addrs (the
svc_endpoints construction of lines 795-799). -/
def finalizeService (eps : List (String × EpEntry)) (key : String)
    (svc : K8sSvcEntry) : SvcResource :=
  let addrs := serviceTargetAddrs eps key
  { name := svc.name
    nspace := svc.nspace
    endpoints := (serviceTargetPorts eps key svc).map
      (fun st => (st.1, addrs.map (fun a => { ip := a, port := st.2 }))) }

/-!
Kubernetes Endpoints decoder (handle_k8s_endpoints, lines 332-451).
-/

/-- The targetRef sub-object of an Endpoints subset address. -/
structure TargetRef where
  kind : Option String
  name : Option String
  nspace : Option String
deriving DecidableEq, Repr

/-- One input address of an Endpoints subset. -/
structure EpAddress where
  ip : Option String
  nodeName : Option String
  targetRef : Option TargetRef
deriving DecidableEq, Repr

/-- One input port of an Endpoints subset. -/
structure EpPort where
  name : Option String
  port : Option Int
  protocol : Option String
deriving DecidableEq, Repr

/-- One Endpoints subset. -/
structure EpSubset where
  addresses : List EpAddress
  ports : List EpPort
deriving DecidableEq, Repr

/-- The metadata of a Kubernetes object as read by the decoders. -/
structure K8sMeta where
  name : Option String
  nspace : Option String
deriving DecidableEq, Repr

/-- A Kubernetes Endpoints object as read by handle_k8s_endpoints. -/
structure EndpointsObj where
  metadata : Option K8sMeta
  subsets : List EpSubset
deriving DecidableEq, Repr

/-- The addr dict built for one input address (lines 385-407). -/
def buildAddr (a : EpAddress) : BuiltAddr :=
  { ip := a.ip
    node := a.nodeName
    target_kind := a.targetRef.bind TargetRef.kind
    target_name := a.targetRef.bind TargetRef.name
    target_namespace := a.targetRef.bind TargetRef.nspace }

/-- The addresses collected for one subset: any addr dict with at least
one key survives (the len(addr) greater than zero test of line 409). -/
def subsetAddresses (s : EpSubset) : List BuiltAddr :=
  (s.addresses.map buildAddr).filter (fun a => a.size > 0)

/-- The port_dict built for one subset (lines 416-436): only TCP ports
with a port number participate; each contributes its numeric string key
and, when the name is truthy, the name, both mapped to the number. -/
def subsetPortDict (s : EpSubset) : List (String × Int) :=
  s.ports.foldl
    (fun acc p =>
      let proto := strUpper (p.protocol.getD "TCP")
      if proto != "TCP" then acc
      else
        match p.port with
        | none => acc
        | some n =>
          let acc' := insertA acc (toString n) n
          match p.name with
          | some nm => if nm != "" then insertA acc' nm n else acc'
          | none => acc')
    []

/-- The handle_k8s_endpoints decoder (lines 332-451): after the skip
checks, each subset with surviving addresses and a nonempty port dict
writes (overwriting) the side-table entry under name.namespace; the
decoder returns no fragments, so its whole effect is the new side table. -/
def handleK8sEndpoints (enableEndpoints : Bool) (eps : List (String × EpEntry))
    (obj : EndpointsObj) : List (String × EpEntry) :=
  if !enableEndpoints then eps
  else
    match obj.metadata with
    | none => eps
    | some md =>
      match md.name with
      | none => eps
      | some nm =>
        if nm = "" then eps
        else if obj.subsets = [] then eps
        else
          let ns := md.nspace.getD "default"
          let rid := nm ++ "." ++ ns
          obj.subsets.foldl
            (fun acc s =>
              let addrs := subsetAddresses s
              if addrs = [] then acc
              else
                let pd := subsetPortDict s
                if pd = [] then acc
                else insertA acc rid
                  { name := nm, nspace := ns, addresses := addrs, ports := pd })
            eps

/-!
Consul service decoder (handle_consul_service, lines 585-632).
-/

/-- One endpoint of a Consul catalog entry as read by the decoder. -/
structure ConsulEp where
  Address : Option String
  Port : Option Int
  ID : Option String
deriving DecidableEq, Repr

/-- A Consul catalog entry as read by the decoder. -/
structure ConsulObj where
  Endpoints : List ConsulEp
  Service : Option String
  Id : Option String
deriving DecidableEq, Repr

/-- One surviving Consul endpoint as stored in the service entry (lines
623-627); the target_kind field is the constant Consul there and is left
out of the model. -/
structure ConsulEpOut where
  ip : String
  port : Int
deriving DecidableEq, Repr

/-- The Service dict written by the Consul decoder into the services table
(lines 603-630); apiVersion, ambassador_id and kind are constants there. -/
structure ConsulSvc where
  name : String
  datacenter : String
  endpoints : List (String × List ConsulEpOut)
deriving DecidableEq, Repr

/-- The handle_consul_service decoder (lines 585-632). Returns the pair
(key, entry) written into the services table, or none when the entry has
no endpoints. An endpoint that is skipped for missing address or port has
its ID read with a subscript for the debug message at line 617, which
raises a KeyError when the ID key is absent; the Except models that
exception. -/
def handleConsulService (rkey : String) (co : ConsulObj) :
    Except String (Option (String × ConsulSvc)) := do
  let name := co.Service.getD rkey
  if co.Endpoints.length < 1 then
    return none
  let dc := match co.Id with
    | some s => if s != "" then s else "dc1"
    | none => "dc1"
  let eps ← co.Endpoints.foldlM
    (fun (acc : List ConsulEpOut) ep => do
      let addrOk := match ep.Address with
        | some a => a != ""
        | none => false
      let portOk := match ep.Port with
        | some p => p != 0
        | none => false
      if !addrOk || !portOk then
        match ep.ID with
        | none => throw "KeyError: ID"
        | some _ => pure acc
      else
        match ep.Address, ep.Port with
        | some a, some p => pure (acc ++ [{ ip := a, port := p }])
        | _, _ => pure acc)
    []
  let endpoints : List (String × List ConsulEpOut) :=
    if eps = [] then [] else [("*", eps)]
  return some ("consul-" ++ name ++ "-" ++ dc,
    { name := name, datacenter := dc, endpoints := endpoints })

/-!
Application-object processing (process_object, lines 270-327, and the
parse_object batch loop, lines 251-268) and the finalize pass over the
whole fetcher state (lines 634-827).
-/

/-- The fields of an application-resource field bag that process_object
reads: the kind discriminator, the name (subscripted in the Service
branch) and the source of a Pragma. -/
structure Obj where
  kind : Option String
  name : Option String
  source : Option String
deriving DecidableEq, Repr

/-- An incoming object of a parse_object batch: a field bag or a non-dict
value (the isinstance check of line 271). -/
inductive PyObj where
  | dict : Obj → PyObj
  | nondict : PyObj
deriving DecidableEq, Repr

/-- An ACResource as far as this development needs it: its rkey and the
field bag it was built from. The construction itself lives outside the
shown source (acresource.py) and may raise; it is passed in as a fallible
function. -/
structure ACRes where
  rkey : String
  obj : Obj
deriving DecidableEq, Repr

/-- A value of the services side table: a directly declared Service
object, a Consul service entry, or a resolved Kubernetes service. -/
inductive SvcVal where
  | direct : Obj → SvcVal
  | consul : ConsulSvc → SvcVal
  | k8s : SvcResource → SvcVal
deriving DecidableEq, Repr

/-- One element of the output collection: an ACResource appended by
process_object, or a serialized services-table entry appended by finalize
(lines 814-818; both are ACResources in the source, distinguished here by
origin so that ordering statements can speak about the two groups). -/
inductive Element where
  | acres : ACRes → Element
  | svcres : String → SvcVal → Element
deriving DecidableEq, Repr

/-- The rkey of an element (both constructor arguments of
ACResource.from_dict are the same key in the source). -/
def Element.key : Element → String
  | .acres r => r.rkey
  | .svcres k _ => k

/-- The mutable state of one ResourceFetcher instance: the output element
list, the three side tables, and the location-tracking fields filename,
ocount and saved. The saved stack keeps its top at the head. -/
structure FState where
  elements : List Element
  services : List (String × SvcVal)
  k8sServices : List (String × K8sSvcEntry)
  k8sEndpoints : List (String × EpEntry)
  filename : Option String
  ocount : Int
  saved : List (Option String × Int)
deriving DecidableEq, Repr

/-- The freshly constructed fetcher state (lines 41-51). -/
def initFState : FState :=
  { elements := [], services := [], k8sServices := [], k8sEndpoints := []
    filename := none, ocount := 1, saved := [] }

/-- The rkey built at lines 306-309: a falsy rkey argument is replaced by
the current filename, and a missing filename prints as None under the
percent-s format. -/
def rkeyFor (st : FState) (rkey : Option String) : String :=
  let base : Option String :=
    match rkey with
    | some r => if r != "" then some r else st.filename
    | none => st.filename
  (match base with
   | some b => b
   | none => "None") ++ "." ++ toString st.ocount

/-- The process_object method (lines 270-327). Non-dict objects, filtered
ambassador ids, and missing kinds post a diagnostic and return normally.
A Pragma updates the filename and gives back its ordinal. A Service object
is stored into the services table under its name subscript, which raises a
KeyError when the name key is absent; that exception is not caught in the
source, so it propagates. Every other kind is built into an ACResource by
fromDict inside a try block, so a construction failure is swallowed after
posting a diagnostic. -/
def processObject (goodId : Obj → Bool) (fromDict : String → Obj → Except String ACRes)
    (st : FState) (pobj : PyObj) (rkey : Option String) : Except String FState :=
  match pobj with
  | .nondict => .ok st
  | .dict o =>
    if !(goodId o) then .ok st
    else
      match o.kind with
      | none => .ok st
      | some knd =>
        if knd = "Pragma" then
          let fn := match o.source with
            | some s => if s != "" then some s else st.filename
            | none => st.filename
          .ok { st with filename := fn, ocount := st.ocount - 1 }
        else
          let rk := rkeyFor st rkey
          if knd = "Service" then
            match o.name with
            | none => .error "KeyError: name"
            | some nm => .ok { st with services := insertA st.services nm (.direct o) }
          else
            match fromDict rk o with
            | .ok r => .ok { st with elements := st.elements ++ [.acres r] }
            | .error _ => .ok st

/-- The parse_object batch loop for application resources (lines 251-268
with k8s false): push the location, process each object in turn while
bumping the ordinal, pop the location. There is no exception handler
around the loop, so an error from processObject propagates and the
remaining objects of the batch are not processed. -/
def parseObject (goodId : Obj → Bool) (fromDict : String → Obj → Except String ACRes)
    (objs : List PyObj) (rkey : Option String) (filename : Option String)
    (st : FState) : Except String FState := do
  let st0 : FState :=
    { st with saved := (st.filename, st.ocount) :: st.saved
              filename := filename, ocount := 1 }
  let st1 ← objs.foldlM
    (fun s obj => do
      let s' ← processObject goodId fromDict s obj rkey
      pure { s' with ocount := s'.ocount + 1 })
    st0
  match st1.saved with
  | top :: rest =>
    pure { st1 with filename := top.1, ocount := top.2, saved := rest }
  | [] => .error "IndexError: pop from empty list"

/-!
Kubernetes Service decoder (handle_k8s_service, lines 453-516).
-/

/-- Whether one string ends with another. -/
def strEndsWith (s suf : String) : Bool :=
  suf.data.isSuffixOf s.data

/-- The metadata of a Kubernetes Service object as read by the decoder:
name, namespace, and the parse result of the getambassador.io/config
value. The YAML parsing of that value is done by an external helper, so
the model carries the parsed object list directly: none models a missing
or falsy annotation value, and a parse error yields the empty list just
as the except branch at line 513 leaves objects empty. -/
structure K8sSvcMeta where
  name : Option String
  nspace : Option String
  ann : Option (List PyObj)
deriving DecidableEq, Repr

/-- A Kubernetes Service object as read by the decoder. specPorts models
spec.ports; a missing spec and a spec without ports both read back as
none through the two chained gets at lines 493-494. -/
structure K8sSvcObj where
  metadata : Option K8sSvcMeta
  specPorts : Option (List PortSpec)
deriving DecidableEq, Repr

/-- The handle_k8s_service decoder (lines 453-516): after the skip checks
it stores name, namespace and ports into the k8s_services side table when
spec.ports is truthy, suffixes the current filename with the annotation
marker when a truthy annotation is present, and returns the resource
identifier together with the embedded objects (empty when there is no
annotation). -/
def handleK8sService (singleNs : Bool) (ambNs : String) (st : FState)
    (obj : K8sSvcObj) : FState × Option (String × List PyObj) :=
  match obj.metadata with
  | none => (st, none)
  | some md =>
    match md.name with
    | none => (st, none)
    | some nm =>
      if nm = "" then (st, none)
      else
        let ns := md.nspace.getD "default"
        if singleNs && ns != ambNs then (st, none)
        else
          let rid := nm ++ "." ++ ns
          let st1 :=
            match obj.specPorts with
            | some ports =>
              if ports = [] then st
              else
                let tbl := insertA st.k8sServices rid ⟨nm, ns, ports⟩
                { st with k8sServices := tbl }
            | none => st
          match md.ann with
          | some objs =>
            let fn := match st1.filename with
              | some f =>
                if strEndsWith f ":annotation" then some f
                else some (f ++ ":annotation")
              | none => none
            ({ st1 with filename := fn }, some (rid, objs))
          | none => (st1, some (rid, []))

/-!
The finalize pass over the whole state (lines 634-827).
-/

/-- The key-value pairs the finalize loop inserts into the services table:
one resolved Service resource per k8s_services entry, keyed by the
k8s-name-namespace string of line 802, in side-table order. -/
def k8sResolvedKVs (s : FState) : List (String × SvcVal) :=
  s.k8sServices.map (fun kv =>
    ("k8s-" ++ kv.2.name ++ "-" ++ kv.2.nspace,
     SvcVal.k8s (finalizeService s.k8sEndpoints kv.1 kv.2)))

/-- The services table after the finalize loop over k8s_services (lines
664-809), written as the literal fold of the loop. -/
def servicesAfter (s : FState) : List (String × SvcVal) :=
  s.k8sServices.foldl
    (fun acc kv =>
      insertA acc ("k8s-" ++ kv.2.name ++ "-" ++ kv.2.nspace)
        (SvcVal.k8s (finalizeService s.k8sEndpoints kv.1 kv.2)))
    s.services

/-- The elements appended by one finalize run: every services-table entry
serialized in table order (lines 814-818). -/
def finalizeEmitted (s : FState) : List Element :=
  (servicesAfter s).map (fun kv => Element.svcres kv.1 kv.2)

/-- One full finalize run (lines 634-827): the services table is updated
by the resolution loop and every table entry is appended to the element
list. -/
def finalizeF (s : FState) : FState :=
  { s with services := servicesAfter s
           elements := s.elements ++ finalizeEmitted s }

/-!
Specification-side definitions, written from the words of the checked
properties, to be compared with the source-translated functions above.
-/

/-- The attribute values a port spec offers for resolution, in the
priority order targetPort, name, port. -/
def PortSpec.cands (spec : PortSpec) : List PVal :=
  [spec.targetPort, spec.name, spec.port].filterMap id

/-- The first attribute value of a port spec that is digit-only, in
priority order: the numeric fallback candidate described by the multi-port
resolution property. -/
def firstDigitAttr (spec : PortSpec) : Option PVal :=
  spec.cands.find? (fun v => strIsDigit v.toStr)

/-- Stated from the words of the multi-port resolution property: try each
of targetPort, name, port in that order as a string key into the endpoint
port map and let the first hit determine the target port; remember the
first digit-only attribute value while scanning; if all lookups miss, use
the remembered candidate, or failing that the source-facing port number.
The source-port and any-attribute-present guards mirror the skips of the
surrounding code so that the two functions describe the same port specs. -/
def resolveSpecDesc (pd : List (String × Int)) (spec : PortSpec) :
    Option (PVal × PVal) :=
  match spec.port with
  | none => none
  | some src =>
    if !src.truthy then none
    else if spec.cands = [] then none
    else
      match spec.cands.find? (fun v => (lookupA pd v.toStr).isSome) with
      | some hit =>
        match lookupA pd hit.toStr with
        | some t => some (src, PVal.vint t)
        | none => some (src, src)
      | none =>
        match firstDigitAttr spec with
        | some f => some (src, f)
        | none => some (src, src)

/-- The one shape of application object whose processing raises an
uncaught exception in process_object: a field bag passing the ambassador
id filter, of kind Service, with no name key (the subscript at line 316
then raises a KeyError). -/
def isAbortObj (goodId : Obj → Bool) : PyObj → Bool
  | .dict o => goodId o && o.kind == some "Service" && o.name == none
  | .nondict => false

/-!
Helper lemmas about the insertion-ordered association lists.
-/

theorem lookupA_mem {α β : Type} [DecidableEq α] {l : List (α × β)} {k : α} {v : β}
    (h : lookupA l k = some v) : (k, v) ∈ l := by
  induction l with
  | nil => simp [lookupA] at h
  | cons kv t ih =>
    obtain ⟨k', v'⟩ := kv
    by_cases hk : k' = k
    · subst hk
      simp [lookupA] at h
      simp [h]
    · simp [lookupA, hk] at h
      exact List.mem_cons_of_mem _ (ih h)

theorem mem_insertA {α β : Type} [DecidableEq α] {l : List (α × β)} {k : α} {v : β}
    {x : α × β} (h : x ∈ insertA l k v) : x = (k, v) ∨ x ∈ l := by
  induction l with
  | nil => simpa [insertA] using h
  | cons kv t ih =>
    obtain ⟨k', v'⟩ := kv
    by_cases hk : k' = k
    · subst hk
      simp [insertA] at h
      rcases h with h | h
      · exact Or.inl (by simp [h])
      · exact Or.inr (List.mem_cons_of_mem _ h)
    · simp [insertA, hk] at h
      rcases h with h | h
      · exact Or.inr (by simp [h])
      · rcases ih h with h' | h'
        · exact Or.inl h'
        · exact Or.inr (List.mem_cons_of_mem _ h')

theorem lookupA_insertA_self {α β : Type} [DecidableEq α] (l : List (α × β)) (k : α)
    (v : β) : lookupA (insertA l k v) k = some v := by
  induction l with
  | nil => simp [insertA, lookupA]
  | cons kv t ih =>
    obtain ⟨k', v'⟩ := kv
    by_cases hk : k' = k
    · subst hk
      simp [insertA, lookupA]
    · simp [insertA, lookupA, hk, ih]

theorem lookupA_insertA_ne {α β : Type} [DecidableEq α] (l : List (α × β)) {k k' : α}
    (v : β) (h : k' ≠ k) : lookupA (insertA l k v) k' = lookupA l k' := by
  have h' : ¬ k = k' := fun hh => h hh.symm
  induction l with
  | nil => simp [insertA, lookupA, h']
  | cons kv t ih =>
    obtain ⟨k1, v1⟩ := kv
    by_cases hk : k1 = k
    · subst hk
      simp [insertA, lookupA, h']
    · simp [insertA, lookupA, hk, ih]

theorem insertA_of_lookupA_eq {α β : Type} [DecidableEq α] {l : List (α × β)} {k : α}
    {v : β} (h : lookupA l k = some v) : insertA l k v = l := by
  induction l with
  | nil => simp [lookupA] at h
  | cons kv t ih =>
    obtain ⟨k', v'⟩ := kv
    by_cases hk : k' = k
    · subst hk
      simp [lookupA] at h
      simp [insertA, h]
    · simp [lookupA, hk] at h
      simp [insertA, hk, ih h]

theorem insertA_of_lookupA_none {α β : Type} [DecidableEq α] {l : List (α × β)}
    {k : α} (v : β) (h : lookupA l k = none) : insertA l k v = l ++ [(k, v)] := by
  induction l with
  | nil => simp [insertA]
  | cons kv t ih =>
    obtain ⟨k', v'⟩ := kv
    by_cases hk : k' = k
    · subst hk
      simp [lookupA] at h
    · simp [lookupA, hk] at h
      simp [insertA, hk, ih h]

theorem lookupA_append_of_none {α β : Type} [DecidableEq α] {l1 : List (α × β)}
    (l2 : List (α × β)) {k : α} (h : lookupA l1 k = none) :
    lookupA (l1 ++ l2) k = lookupA l2 k := by
  induction l1 with
  | nil => simp
  | cons kv t ih =>
    obtain ⟨k', v'⟩ := kv
    by_cases hk : k' = k
    · subst hk
      simp [lookupA] at h
    · simp [lookupA, hk] at h ⊢
      exact ih h

theorem insertKVs_of_lookupA {α β : Type} [DecidableEq α] {kvs : List (α × β)} :
    ∀ {t : List (α × β)}, (∀ kv ∈ kvs, lookupA t kv.1 = some kv.2) →
      insertKVs t kvs = t := by
  induction kvs with
  | nil => intro t _; rfl
  | cons kv rest ih =>
    intro t h
    have h1 : lookupA t kv.1 = some kv.2 := h kv (List.mem_cons_self _ _)
    have : insertKVs t (kv :: rest) = insertKVs (insertA t kv.1 kv.2) rest := rfl
    rw [this, insertA_of_lookupA_eq h1]
    exact ih (fun x hx => h x (List.mem_cons_of_mem _ hx))

theorem lookupA_insertKVs_not_mem {α β : Type} [DecidableEq α] {kvs : List (α × β)} :
    ∀ {t : List (α × β)} {k : α}, k ∉ kvs.map Prod.fst →
      lookupA (insertKVs t kvs) k = lookupA t k := by
  induction kvs with
  | nil => intro t k _; rfl
  | cons kv rest ih =>
    intro t k h
    simp only [List.map_cons, List.mem_cons] at h
    push_neg at h
    have : insertKVs t (kv :: rest) = insertKVs (insertA t kv.1 kv.2) rest := rfl
    rw [this, ih h.2, lookupA_insertA_ne _ _ h.1]

theorem lookupA_insertKVs_of_nodup {α β : Type} [DecidableEq α] {kvs : List (α × β)}
    (hnd : (kvs.map Prod.fst).Nodup) :
    ∀ {t : List (α × β)}, ∀ kv ∈ kvs, lookupA (insertKVs t kvs) kv.1 = some kv.2 := by
  induction kvs with
  | nil => intro t kv h; simp at h
  | cons kv0 rest ih =>
    intro t kv h
    simp only [List.map_cons, List.nodup_cons] at hnd
    have step : insertKVs t (kv0 :: rest) = insertKVs (insertA t kv0.1 kv0.2) rest := rfl
    rcases List.mem_cons.mp h with h | h
    · subst h
      rw [step, lookupA_insertKVs_not_mem hnd.1, lookupA_insertA_self]
    · rw [step]
      exact ih hnd.2 kv h

theorem insertKVs_fresh_append {α β : Type} [DecidableEq α] {kvs : List (α × β)}
    (hnd : (kvs.map Prod.fst).Nodup) :
    ∀ {t : List (α × β)}, (∀ k ∈ kvs.map Prod.fst, lookupA t k = none) →
      insertKVs t kvs = t ++ kvs := by
  induction kvs with
  | nil => intro t _; simp [insertKVs]
  | cons kv0 rest ih =>
    intro t h
    simp only [List.map_cons, List.nodup_cons] at hnd
    have h0 : lookupA t kv0.1 = none := h kv0.1 (by simp)
    have step : insertKVs t (kv0 :: rest) = insertKVs (insertA t kv0.1 kv0.2) rest := rfl
    rw [step, insertA_of_lookupA_none _ h0, ih hnd.2]
    · simp
    · intro k hk
      have hne : k ≠ kv0.1 := by
        rintro rfl
        exact hnd.1 hk
      rw [lookupA_append_of_none _ (h k (by simp [hk]))]
      have hne' : ¬ kv0.1 = k := fun hh => hne hh.symm
      simp [lookupA, hne']

/-!
Lemmas about the attribute scan of the finalize port resolution.
-/

theorem scanAttrs_fk_true (pd : List (String × Int)) (spec : PortSpec) :
    ∀ (l : List String) (fb : Option PVal) (kt : Option Int),
      (scanAttrs pd spec l true fb kt).1 = true := by
  intro l
  induction l with
  | nil => intro fb kt; rfl
  | cons a rest ih =>
    intro fb kt
    simp only [scanAttrs]
    cases h : spec.getAttr a with
    | none => exact ih _ _
    | some pk =>
      by_cases hp : pk.truthy
      · simp only [hp, if_true]
        split
        · rfl
        · exact ih _ _
      · simp only [hp, if_false]
        exact ih _ _

theorem scanAttrs_found_of_attr (pd : List (String × Int)) (spec : PortSpec)
    {a : String} {v : PVal} (ha : spec.getAttr a = some v) (hv : v.truthy = true) :
    ∀ (l : List String), a ∈ l → ∀ (fk : Bool) (fb : Option PVal) (kt : Option Int),
      (scanAttrs pd spec l fk fb kt).1 = true := by
  intro l
  induction l with
  | nil => intro h; simp at h
  | cons b rest ih =>
    intro hmem fk fb kt
    rcases List.mem_cons.mp hmem with hb | hb
    · subst hb
      simp only [scanAttrs, ha, hv, if_true]
      split
      · rfl
      · exact scanAttrs_fk_true pd spec rest _ _
    · simp only [scanAttrs]
      cases h : spec.getAttr b with
      | none => exact ih hb _ _ _
      | some pk =>
        by_cases hp : pk.truthy
        · simp only [hp, if_true]
          split
          · rfl
          · exact scanAttrs_fk_true pd spec rest _ _
        · simp only [hp, if_false]
          exact ih hb _ _ _

/-- C6 (amended): in the finalize pass a service port spec is skipped,
contributing nothing to the target-port map, exactly when its port
attribute is missing or falsy; in particular a spec that carries
targetPort or name but no port number is still skipped, and a spec with a
truthy port is never skipped, so the skip at the none-of-the-three check
is unreachable. -/
theorem resolveSpec_skip_iff (pd : List (String × Int)) (spec : PortSpec) :
    (resolveSpec pd spec = none) ↔ pyTruthy spec.port = false := by
  obtain ⟨p, n, t⟩ := spec
  cases p with
  | none => simp [resolveSpec, pyTruthy]
  | some src =>
    by_cases hs : src.truthy
    · have hfound : ∀ (fk : Bool) (fb : Option PVal) (kt : Option Int),
          (scanAttrs pd ⟨some src, n, t⟩ ["targetPort", "name", "port"] fk fb kt).1
            = true :=
        fun fk fb kt => scanAttrs_found_of_attr pd ⟨some src, n, t⟩
          (a := "port") (by simp [PortSpec.getAttr]) hs _ (by simp) fk fb kt
      simp only [pyTruthy, hs]
      rcases pd with _ | ⟨kv, _ | ⟨kv2, rest⟩⟩
      · rcases hsc : scanAttrs [] ⟨some src, n, t⟩ ["targetPort", "name", "port"]
          false none none with ⟨fk, fb, kt⟩
        have h1 := hfound false none none
        rw [hsc] at h1
        simp only at h1
        subst h1
        simp only [resolveSpec, hs, Bool.not_true, if_false, hsc]
        rcases kt with _ | tv
        · simp_all
        · simp_all
          split <;> simp
      · simp [resolveSpec, hs]
      · rcases hsc : scanAttrs (kv :: kv2 :: rest) ⟨some src, n, t⟩
          ["targetPort", "name", "port"] false none none with ⟨fk, fb, kt⟩
        have h1 := hfound false none none
        rw [hsc] at h1
        simp only at h1
        subst h1
        simp only [resolveSpec, hs, Bool.not_true, if_false, hsc]
        rcases kt with _ | tv
        · simp_all
        · simp_all
          split <;> simp
    · simp only [pyTruthy, hs]
      simp only [resolveSpec]
      simp [hs]

/-- C6 counterexample: the claim that a port spec carrying at least one of
the three attributes is never skipped fails on the code: a spec with a
targetPort but no port number is skipped by the source-port check at line
719 of finalize (here the endpoint port map has two entries so the
single-entry shortcut does not mask the skip). -/
theorem c6_counterexample :
    resolveSpec [("80", 8080), ("443", 8443)]
        { port := none, name := none, targetPort := some (PVal.vstr "8080") } = none
      ∧ (({ port := none, name := none, targetPort := some (PVal.vstr "8080") }
          : PortSpec)).targetPort.isSome = true := by
  constructor
  · rfl
  · rfl

end RF

namespace RF

theorem digit_name_cond (pk : PVal) :
    ((pk != PVal.vstr "name") && strIsDigit pk.toStr) = strIsDigit pk.toStr := by
  by_cases h : pk = PVal.vstr "name"
  · subst h; decide
  · simp [h]

theorem scanAttrs_desc (pd : List (String × Int)) (spec : PortSpec) (src : PVal)
    (hv : ∀ kv ∈ pd, kv.2 ≠ 0) :
    ∀ (l : List String) (fb : Option PVal),
      (∀ a ∈ l, ∀ v, spec.getAttr a = some v → v.truthy = true) →
      (∀ f, fb = some f → f.truthy = true) →
      (match scanAttrs pd spec l true fb none with
       | (fk, fb2, kt) =>
         if !fk then (none : Option (PVal × PVal))
         else match kt with
           | some x => if x != 0 then some (src, PVal.vint x) else some (src, pyOr fb2 src)
           | none => some (src, pyOr fb2 src))
      =
      (match (l.filterMap spec.getAttr).find? (fun v => (lookupA pd v.toStr).isSome) with
       | some hit =>
         (match lookupA pd hit.toStr with
          | some x => some (src, PVal.vint x)
          | none => some (src, src))
       | none =>
         some (src, pyOr (fb.orElse (fun _ =>
           (l.filterMap spec.getAttr).find? (fun v => strIsDigit v.toStr))) src)) := by
  intro l
  induction l with
  | nil =>
    intro fb _ _
    simp [scanAttrs]
  | cons a rest ih =>
    intro fb hl hfb
    have hrest : ∀ b ∈ rest, ∀ v, spec.getAttr b = some v → v.truthy = true :=
      fun b hb v hx => hl b (List.mem_cons_of_mem _ hb) v hx
    cases h : spec.getAttr a with
    | none =>
      have hstep : scanAttrs pd spec (a :: rest) true fb none
          = scanAttrs pd spec rest true fb none := by
        simp only [scanAttrs, h]
      have hfm : (a :: rest).filterMap spec.getAttr = rest.filterMap spec.getAttr := by
        simp [List.filterMap_cons, h]
      rw [hstep, hfm]
      exact ih fb hrest hfb
    | some pk =>
      have hpk : pk.truthy = true := hl a (List.mem_cons_self _ _) pk h
      have hfm : (a :: rest).filterMap spec.getAttr = pk :: rest.filterMap spec.getAttr := by
        simp [List.filterMap_cons, h]
      cases hlk : lookupA pd pk.toStr with
      | some x =>
        have hx : x ≠ 0 := hv (pk.toStr, x) (lookupA_mem hlk)
        have hstep : scanAttrs pd spec (a :: rest) true fb none
            = (true, (if !(pyTruthy fb) && (pk != PVal.vstr "name") && strIsDigit pk.toStr
                then some pk else fb), some x) := by
          simp only [scanAttrs, h, hpk, if_true, hlk]
          simp [pyTruthyInt, hx]
        have hfind : ((pk :: rest.filterMap spec.getAttr).find?
            (fun v => (lookupA pd v.toStr).isSome)) = some pk :=
          List.find?_cons_of_pos _ (by simp [hlk])
        rw [hstep, hfm, hfind]
        simp [hlk, hx]
      | none =>
        have hfind : ((pk :: rest.filterMap spec.getAttr).find?
            (fun v => (lookupA pd v.toStr).isSome)) =
            (rest.filterMap spec.getAttr).find? (fun v => (lookupA pd v.toStr).isSome) :=
          List.find?_cons_of_neg _ (by simp [hlk])
        set fb2 := if !(pyTruthy fb) && (pk != PVal.vstr "name") && strIsDigit pk.toStr
          then some pk else fb with hfb2
        have hfb2t : ∀ f, fb2 = some f → f.truthy = true := by
          intro f hf
          rw [hfb2] at hf
          by_cases hc : (!(pyTruthy fb) && (pk != PVal.vstr "name") && strIsDigit pk.toStr) = true
          · rw [if_pos hc] at hf
            cases hf
            exact hpk
          · rw [if_neg hc] at hf
            exact hfb f hf
        have hstep : scanAttrs pd spec (a :: rest) true fb none
            = scanAttrs pd spec rest true fb2 none := by
          simp only [scanAttrs, h, hpk, if_true, hlk]
          simp only [pyTruthyInt, Bool.false_eq_true, if_false]
        have hOr : (fb2.orElse (fun _ =>
              (rest.filterMap spec.getAttr).find? (fun v => strIsDigit v.toStr)))
            = (fb.orElse (fun _ =>
              (pk :: rest.filterMap spec.getAttr).find? (fun v => strIsDigit v.toStr))) := by
          rw [hfb2]
          cases fb with
          | some f =>
            have hft : pyTruthy (some f) = true := by simp [pyTruthy, hfb f rfl]
            simp [hft, Option.orElse]
          | none =>
            simp only [pyTruthy, Bool.not_false, Bool.true_and, digit_name_cond]
            by_cases hd : strIsDigit pk.toStr = true
            · have hfd : ((pk :: rest.filterMap spec.getAttr).find?
                  (fun v => strIsDigit v.toStr)) = some pk :=
                List.find?_cons_of_pos _ hd
              simp [hd, hfd, Option.orElse]
            · have hfd : ((pk :: rest.filterMap spec.getAttr).find?
                  (fun v => strIsDigit v.toStr)) =
                  (rest.filterMap spec.getAttr).find? (fun v => strIsDigit v.toStr) :=
                List.find?_cons_of_neg _ (by simp [hd])
              simp [hd, hfd, Option.orElse]
        have hmain := ih fb2 hrest hfb2t
        rw [hstep, hmain, hfm, hfind, ← hOr]

end RF

namespace RF

theorem scanAttrs_false_eq_true (pd : List (String × Int)) (spec : PortSpec) :
    ∀ (l : List String) (fb : Option PVal) (kt : Option Int),
      (∃ a ∈ l, ∃ v, spec.getAttr a = some v ∧ v.truthy = true) →
      scanAttrs pd spec l false fb kt = scanAttrs pd spec l true fb kt := by
  intro l
  induction l with
  | nil =>
    intro fb kt h
    simp at h
  | cons a rest ih =>
    intro fb kt hex
    cases h : spec.getAttr a with
    | none =>
      simp only [scanAttrs, h]
      apply ih
      rcases hex with ⟨b, hb, v, hbv, hv⟩
      rcases List.mem_cons.mp hb with rfl | hb
      · rw [h] at hbv; cases hbv
      · exact ⟨b, hb, v, hbv, hv⟩
    | some pk =>
      by_cases hpk : pk.truthy = true
      · simp only [scanAttrs, h, hpk, if_true]
      · simp only [scanAttrs, h]
        rw [if_neg hpk, if_neg hpk]
        apply ih
        rcases hex with ⟨b, hb, v, hbv, hv⟩
        rcases List.mem_cons.mp hb with rfl | hb
        · rw [h] at hbv
          cases hbv
          exact absurd hv hpk
        · exact ⟨b, hb, v, hbv, hv⟩

theorem cands_filterMap (p n t : Option PVal) :
    ["targetPort", "name", "port"].filterMap (PortSpec.getAttr ⟨p, n, t⟩)
      = PortSpec.cands ⟨p, n, t⟩ := by
  cases p <;> cases n <;> cases t <;>
    simp [PortSpec.cands, PortSpec.getAttr, List.filterMap_cons]

theorem resolveSpec_eq_desc (pd : List (String × Int)) (spec : PortSpec)
    (hv : ∀ kv ∈ pd, kv.2 ≠ 0)
    (hlen : pd.length ≠ 1)
    (ht : ∀ v, spec.targetPort = some v → v.truthy = true)
    (hn : ∀ v, spec.name = some v → v.truthy = true)
    (hp : ∀ v, spec.port = some v → v.truthy = true) :
    resolveSpec pd spec = resolveSpecDesc pd spec := by
  obtain ⟨p, n, t⟩ := spec
  cases p with
  | none => simp [resolveSpec, resolveSpecDesc]
  | some src =>
    have hs : src.truthy = true := hp src rfl
    have hattr : ∀ a ∈ ["targetPort", "name", "port"], ∀ v,
        PortSpec.getAttr ⟨some src, n, t⟩ a = some v → v.truthy = true := by
      intro a ha v hav
      fin_cases ha
      · exact ht v (by simpa [PortSpec.getAttr] using hav)
      · exact hn v (by simpa [PortSpec.getAttr] using hav)
      · simp [PortSpec.getAttr] at hav
        subst hav
        exact hs
    have hcand : ∀ v ∈ PortSpec.cands ⟨some src, n, t⟩, v.truthy = true := by
      intro v hv'
      have hd : t = some v ∨ n = some v ∨ v = src := by
        rcases t with _ | tv <;> rcases n with _ | nv <;>
          simp [PortSpec.cands, List.filterMap_cons] at hv'
        · exact Or.inr (Or.inr hv')
        · rcases hv' with h1 | h1
          · exact Or.inr (Or.inl (by rw [h1]))
          · exact Or.inr (Or.inr h1)
        · rcases hv' with h1 | h1
          · exact Or.inl (by rw [h1])
          · exact Or.inr (Or.inr h1)
        · rcases hv' with h1 | h1 | h1
          · exact Or.inl (by rw [h1])
          · exact Or.inr (Or.inl (by rw [h1]))
          · exact Or.inr (Or.inr h1)
      rcases hd with h1 | h1 | h1
      · exact ht v h1
      · exact hn v h1
      · subst h1; exact hs
    have hne : PortSpec.cands ⟨some src, n, t⟩ ≠ [] := by
      cases t <;> cases n <;> simp [PortSpec.cands, List.filterMap_cons]
    have hex : ∃ a ∈ ["targetPort", "name", "port"], ∃ v,
        PortSpec.getAttr ⟨some src, n, t⟩ a = some v ∧ v.truthy = true := by
      refine ⟨"port", by simp, src, ?_, hs⟩
      simp [PortSpec.getAttr]
    have hdesc : resolveSpecDesc pd ⟨some src, n, t⟩ =
        (match (PortSpec.cands ⟨some src, n, t⟩).find?
            (fun v => (lookupA pd v.toStr).isSome) with
         | some hit =>
           (match lookupA pd hit.toStr with
            | some x => some (src, PVal.vint x)
            | none => some (src, src))
         | none =>
           some (src, pyOr ((none : Option PVal).orElse (fun _ =>
             (PortSpec.cands ⟨some src, n, t⟩).find? (fun v => strIsDigit v.toStr))) src)) := by
      simp only [resolveSpecDesc, hs, Bool.not_true, Bool.false_eq_true, if_false, hne]
      have hOE : ((none : Option PVal).orElse (fun _ =>
          (PortSpec.cands ⟨some src, n, t⟩).find? (fun v => strIsDigit v.toStr)))
          = (PortSpec.cands ⟨some src, n, t⟩).find? (fun v => strIsDigit v.toStr) := by
        simp [Option.orElse]
      rw [hOE]
      cases hfd : (PortSpec.cands ⟨some src, n, t⟩).find?
          (fun v => (lookupA pd v.toStr).isSome) with
      | some hit => simp [firstDigitAttr]
      | none =>
        simp only [firstDigitAttr]
        cases hdd : (PortSpec.cands ⟨some src, n, t⟩).find? (fun v => strIsDigit v.toStr) with
        | some f =>
          have hfm : f ∈ PortSpec.cands ⟨some src, n, t⟩ := List.mem_of_find?_eq_some hdd
          have hftr : f.truthy = true := hcand f hfm
          simp [pyOr, hftr]
        | none => simp [pyOr]
    have hgen := scanAttrs_desc pd ⟨some src, n, t⟩ src hv
      ["targetPort", "name", "port"] none hattr (by intro f hf; cases hf)
    rw [cands_filterMap] at hgen
    have hbridge := scanAttrs_false_eq_true pd ⟨some src, n, t⟩
      ["targetPort", "name", "port"] none none hex
    rw [hdesc, ← hgen]
    rcases pd with _ | ⟨kv, _ | ⟨kv2, rest⟩⟩
    · simp only [resolveSpec, hs, Bool.not_true, Bool.false_eq_true, if_false]
      rw [hbridge]
    · exact absurd rfl hlen
    · simp only [resolveSpec, hs, Bool.not_true, Bool.false_eq_true, if_false]
      rw [hbridge]

end RF

namespace RF

theorem resolvePorts_val_aux (pd : List (String × Int)) (P : PVal → Prop)
    (h : ∀ spec s tv, resolveSpec pd spec = some (s, tv) → P tv) :
    ∀ (specs : List PortSpec) (acc : List (PVal × PVal)),
      (∀ kv ∈ acc, P kv.2) →
      ∀ kv ∈ specs.foldl (fun acc spec =>
          match resolveSpec pd spec with
          | some st => insertA acc st.1 st.2
          | none => acc) acc, P kv.2 := by
  intro specs
  induction specs with
  | nil =>
    intro acc hacc kv hkv
    exact hacc kv hkv
  | cons spec rest ih =>
    intro acc hacc kv hkv
    simp only [List.foldl_cons] at hkv
    refine ih _ ?_ kv hkv
    cases hres : resolveSpec pd spec with
    | none =>
      intro x hx
      exact hacc x hx
    | some st =>
      intro x hx
      rcases mem_insertA hx with hx | hx
      · subst hx
        exact h spec st.1 st.2 (by rw [hres])
      · exact hacc x hx

theorem resolvePorts_val (pd : List (String × Int)) (specs : List PortSpec)
    (P : PVal → Prop)
    (h : ∀ spec s tv, resolveSpec pd spec = some (s, tv) → P tv) :
    ∀ kv ∈ resolvePorts pd specs, P kv.2 :=
  resolvePorts_val_aux pd P h specs [] (by simp)

/-- C1: for every Kubernetes service side-table entry whose matching
endpoint side-table entry has a port map with exactly one entry, every
service port spec with a truthy source port resolves to that single target
port, whatever its name, number or targetPort say, and consequently every
binding of the emitted resolved Service resource carries that target
port. -/
theorem c1_single_endpoint_port (eps : List (String × EpEntry)) (key : String)
    (svc : K8sSvcEntry) (e : EpEntry) (k : String) (v : Int)
    (he : lookupA eps key = some e) (hp : e.ports = [(k, v)]) :
    (∀ spec ∈ svc.ports, ∀ src, spec.port = some src → src.truthy = true →
        resolveSpec e.ports spec = some (src, PVal.vint v)) ∧
    (∀ pe ∈ (finalizeService eps key svc).endpoints, ∀ b ∈ pe.2,
        b.port = PVal.vint v) := by
  have hone : ∀ spec s tv, resolveSpec [(k, v)] spec = some (s, tv) →
      tv = PVal.vint v := by
    intro spec s tv hres
    cases hps : spec.port with
    | none => simp [resolveSpec, hps] at hres
    | some src =>
      by_cases hst : src.truthy = true
      · simp [resolveSpec, hps, hst] at hres
        exact hres.2.symm
      · simp [resolveSpec, hps, hst] at hres
  constructor
  · intro spec _ src hsrc htr
    rw [hp]
    simp [resolveSpec, hsrc, htr]
  · intro pe hpe b hb
    have hep : serviceTargetPorts eps key svc = resolvePorts [(k, v)] svc.ports := by
      simp [serviceTargetPorts, he, hp]
    simp only [finalizeService, hep, List.mem_map] at hpe
    rcases hpe with ⟨st, hst, rfl⟩
    simp only [List.mem_map] at hb
    rcases hb with ⟨a, _, rfl⟩
    exact resolvePorts_val [(k, v)] svc.ports (fun tv => tv = PVal.vint v) hone st hst

/-- C1 witness: a one-entry endpoint port map resolves a service port spec
with mismatched name and targetPort to the single endpoint target port
8080. -/
theorem c1_single_endpoint_port_witness :
    resolveSpec [("http", 8080)]
        { port := some (PVal.vint 80), name := some (PVal.vstr "zzz")
          targetPort := some (PVal.vint 9999) }
      = some (PVal.vint 80, PVal.vint 8080) := by
  have h := (c1_single_endpoint_port
    [("web.default", { name := "web", nspace := "default", addresses := []
                       ports := [("http", 8080)] })]
    "web.default"
    { name := "web", nspace := "default"
      ports := [{ port := some (PVal.vint 80), name := some (PVal.vstr "zzz")
                  targetPort := some (PVal.vint 9999) }] }
    { name := "web", nspace := "default", addresses := [], ports := [("http", 8080)] }
    "http" 8080 (by decide) (by decide)).1
  exact h _ (by decide) _ rfl (by decide)

/-- C3: a Kubernetes service side-table entry with no matching endpoint
entry, or one whose port map is empty, falls back to service-name routing:
the address list used for the resolved resource is exactly the one-element
list holding the name.namespace key, and the per-port endpoint map of the
emitted resource is empty. -/
theorem c3_service_routing_fallback (eps : List (String × EpEntry)) (key : String)
    (svc : K8sSvcEntry)
    (h : lookupA eps key = none ∨ ∃ e, lookupA eps key = some e ∧ e.ports = []) :
    serviceTargetAddrs eps key = [key] ∧
      (finalizeService eps key svc).endpoints = [] := by
  rcases h with h | ⟨e, he, hp⟩
  · constructor
    · simp [serviceTargetAddrs, serviceTargetAddrs0, h]
    · simp [finalizeService, serviceTargetPorts, h]
  · constructor
    · simp [serviceTargetAddrs, serviceTargetAddrs0, he, hp]
    · simp [finalizeService, serviceTargetPorts, he, hp]

/-- C3 witness: a service with no endpoint entry at all resolves to the
one-element address list holding its own identifier and an empty endpoint
map. -/
theorem c3_service_routing_fallback_witness :
    serviceTargetAddrs [] "foo.default" = ["foo.default"] ∧
      (finalizeService [] "foo.default"
        ⟨"foo", "default", [⟨some (PVal.vint 80), none, none⟩]⟩).endpoints = [] :=
  c3_service_routing_fallback [] "foo.default"
    ⟨"foo", "default", [⟨some (PVal.vint 80), none, none⟩]⟩
    (Or.inl (by decide))

end RF

namespace RF

theorem cands_cases {p n t : Option PVal} {v : PVal}
    (hv : v ∈ PortSpec.cands ⟨p, n, t⟩) :
    t = some v ∨ n = some v ∨ p = some v := by
  rcases p with _ | pv <;> rcases n with _ | nv <;> rcases t with _ | tv <;>
    simp [PortSpec.cands, List.filterMap_cons] at hv <;>
    rcases hv with h1 | h1 | h1 | h1 <;> simp_all

/-- C2: when the endpoint port map has more than one entry green, the code
resolution of one service port spec coincides with the described
algorithm: try targetPort, then name, then port, in that order, as string
keys into the endpoint port map, first hit wins; remember the first
digit-only attribute value while scanning; if all three lookups miss use
the remembered candidate, or failing that the source-facing port number.
The hypotheses restrict to port maps with no zero target (a Python-truthy
hit) and port specs whose present attributes are truthy, the shapes the
Endpoints and Service decoders produce. -/
theorem c2_multi_entry_priority (pd : List (String × Int)) (spec : PortSpec)
    (hv : ∀ kv ∈ pd, kv.2 ≠ 0)
    (hlen : pd.length ≠ 1)
    (ht : ∀ v, spec.targetPort = some v → v.truthy = true)
    (hn : ∀ v, spec.name = some v → v.truthy = true)
    (hp : ∀ v, spec.port = some v → v.truthy = true) :
    resolveSpec pd spec = resolveSpecDesc pd spec :=
  resolveSpec_eq_desc pd spec hv hlen ht hn hp

/-- C2 witness: on a two-entry endpoint port map, a spec whose targetPort
misses, whose name hits, and whose port would also hit resolves by the
name lookup, agreeing with the described priority order. -/
theorem c2_multi_entry_priority_witness :
    resolveSpec [("80", 8080), ("web", 8443)]
        { port := some (PVal.vint 80), name := some (PVal.vstr "web")
          targetPort := some (PVal.vstr "missing") }
      = resolveSpecDesc [("80", 8080), ("web", 8443)]
        { port := some (PVal.vint 80), name := some (PVal.vstr "web")
          targetPort := some (PVal.vstr "missing") } :=
  c2_multi_entry_priority [("80", 8080), ("web", 8443)]
    { port := some (PVal.vint 80), name := some (PVal.vstr "web")
      targetPort := some (PVal.vstr "missing") }
    (by decide) (by decide) (by decide) (by decide) (by decide)

/-- C10: an Endpoints subset whose single TCP port is named stores a
two-entry port map (numeric-string key and name, both to the same target),
so the single-entry shortcut does not apply; a service port spec none of
whose attributes matches either key then resolves to its own first
digit-only attribute value, or failing that its source port, and in
either case not to the endpoint target port. -/
theorem c10_named_port_dual_key (addrs : List EpAddress) (nm : String) (nval : Int)
    (spec : PortSpec) (src : PVal)
    (hnm : nm ≠ "") (hne : nm ≠ toString nval) (hn0 : nval ≠ 0)
    (hsrc : spec.port = some src)
    (ht : ∀ v, spec.targetPort = some v → v.truthy = true)
    (hn : ∀ v, spec.name = some v → v.truthy = true)
    (hp : ∀ v, spec.port = some v → v.truthy = true)
    (hmt : ∀ v, spec.targetPort = some v → v.toStr ≠ toString nval ∧ v.toStr ≠ nm)
    (hmn : ∀ v, spec.name = some v → v.toStr ≠ toString nval ∧ v.toStr ≠ nm)
    (hmp : ∀ v, spec.port = some v → v.toStr ≠ toString nval ∧ v.toStr ≠ nm) :
    subsetPortDict ⟨addrs, [⟨some nm, some nval, none⟩]⟩
      = [(toString nval, nval), (nm, nval)] ∧
    resolveSpec [(toString nval, nval), (nm, nval)] spec
      = some (src, pyOr (firstDigitAttr spec) src) ∧
    pyOr (firstDigitAttr spec) src ≠ PVal.vint nval := by
  obtain ⟨p, n, t⟩ := spec
  have hps : p = some src := hsrc
  subst hps
  have hstruthy : src.truthy = true := hp src rfl
  have hpd : ∀ v ∈ PortSpec.cands ⟨some src, n, t⟩,
      lookupA [(toString nval, nval), (nm, nval)] v.toStr = none := by
    intro v hvc
    have hd := cands_cases hvc
    have hv2 : v.toStr ≠ toString nval ∧ v.toStr ≠ nm := by
      rcases hd with h1 | h1 | h1
      · exact hmt v h1
      · exact hmn v h1
      · exact hmp v h1
    have e1 : ¬ toString nval = v.toStr := fun hh => hv2.1 hh.symm
    have e2 : ¬ nm = v.toStr := fun hh => hv2.2 hh.symm
    simp [lookupA, e1, e2]
  refine ⟨?_, ?_, ?_⟩
  · have hne' : ¬ toString nval = nm := fun hh => hne hh.symm
    have htcp : strUpper "TCP" = "TCP" := by decide
    simp [subsetPortDict, insertA, hnm, hne', htcp]
  · rw [resolveSpec_eq_desc _ _ ?hv (by simp) ht hn hp]
    case hv =>
      intro kv hkv
      simp only [List.mem_cons, List.not_mem_nil, or_false] at hkv
      rcases hkv with rfl | rfl
      · exact hn0
      · exact hn0
    have hcne : PortSpec.cands ⟨some src, n, t⟩ ≠ [] := by
      rcases t with _ | tv <;> rcases n with _ | nv <;>
        simp [PortSpec.cands, List.filterMap_cons]
    have hfnone : (PortSpec.cands ⟨some src, n, t⟩).find?
        (fun v => (lookupA [(toString nval, nval), (nm, nval)] v.toStr).isSome)
        = none := by
      rw [List.find?_eq_none]
      intro v hvc
      simp [hpd v hvc]
    simp only [resolveSpecDesc, hstruthy, Bool.not_true, Bool.false_eq_true, if_false,
      hcne, if_neg hcne, hfnone, firstDigitAttr]
    cases hdd : (PortSpec.cands ⟨some src, n, t⟩).find? (fun v => strIsDigit v.toStr) with
    | some f =>
      have hfc : f ∈ PortSpec.cands ⟨some src, n, t⟩ := List.mem_of_find?_eq_some hdd
      have hd := cands_cases hfc
      have hft : f.truthy = true := by
        rcases hd with h1 | h1 | h1
        · exact ht f h1
        · exact hn f h1
        · cases h1; exact hstruthy
      simp [pyOr, hft]
    | none => simp [pyOr]
  · have hsrcval : src.toStr ≠ toString nval := (hmp src rfl).1
    cases hdd : firstDigitAttr ⟨some src, n, t⟩ with
    | some f =>
      have hfc : f ∈ PortSpec.cands ⟨some src, n, t⟩ :=
        List.mem_of_find?_eq_some hdd
      have hd := cands_cases hfc
      have hft : f.truthy = true := by
        rcases hd with h1 | h1 | h1
        · exact ht f h1
        · exact hn f h1
        · cases h1; exact hstruthy
      have hfval : f.toStr ≠ toString nval := by
        rcases hd with h1 | h1 | h1
        · exact (hmt f h1).1
        · exact (hmn f h1).1
        · cases h1; exact hsrcval
      simp only [pyOr, hft, if_true]
      intro hcontra
      subst hcontra
      exact hfval rfl
    | none =>
      simp only [pyOr]
      intro hcontra
      subst hcontra
      exact hsrcval rfl

end RF

namespace RF

/-- C10 witness: a subset with the single named TCP port http 8080 stores
the two-entry map, and the spec with port 80, name web, targetPort 9999
resolves to its own digit-only targetPort value 9999, not to 8080. -/
theorem c10_named_port_dual_key_witness :
    subsetPortDict ⟨[], [⟨some "http", some 8080, none⟩]⟩
      = [("8080", 8080), ("http", 8080)] ∧
    resolveSpec [("8080", 8080), ("http", 8080)]
        { port := some (PVal.vint 80), name := some (PVal.vstr "web")
          targetPort := some (PVal.vint 9999) }
      = some (PVal.vint 80, pyOr (firstDigitAttr
          { port := some (PVal.vint 80), name := some (PVal.vstr "web")
            targetPort := some (PVal.vint 9999) }) (PVal.vint 80)) ∧
    pyOr (firstDigitAttr
        { port := some (PVal.vint 80), name := some (PVal.vstr "web")
          targetPort := some (PVal.vint 9999) }) (PVal.vint 80)
      ≠ PVal.vint 8080 :=
  c10_named_port_dual_key [] "http" 8080
    { port := some (PVal.vint 80), name := some (PVal.vstr "web")
      targetPort := some (PVal.vint 9999) }
    (PVal.vint 80)
    (by decide) (by decide) (by decide) rfl
    (by decide) (by decide) (by decide)
    (by decide) (by decide) (by decide)

/-- C4 counterexample: an Endpoints subset address carrying only a node
name and no ip is collected, and the subset still produces a side-table
entry, so the claim that only addresses with at least an IP are collected
fails on the code (the len(addr) greater than zero test at line 409 counts
any saved key). -/
theorem c4_counterexample :
    lookupA (handleK8sEndpoints true []
        { metadata := some { name := some "svc", nspace := none }
          subsets := [{ addresses := [{ ip := none, nodeName := some "n"
                                        targetRef := none }]
                        ports := [{ name := none, port := some 8080
                                    protocol := none }] }] })
      "svc.default"
    = some { name := "svc", nspace := "default"
             addresses := [{ ip := none, node := some "n", target_kind := none
                             target_name := none, target_namespace := none }]
             ports := [("8080", 8080)] } ∧
    ({ ip := none, node := some "n", target_kind := none, target_name := none
       target_namespace := none } : BuiltAddr).ip = none := by
  constructor
  · decide
  · rfl

theorem handleK8sEndpoints_fold_aux (nm ns rid : String) :
    ∀ (subsets : List EpSubset) (acc : List (String × EpEntry)) (k : String)
      (e : EpEntry),
      lookupA (subsets.foldl
        (fun acc s =>
          let addrs := subsetAddresses s
          if addrs = [] then acc
          else
            let pd := subsetPortDict s
            if pd = [] then acc
            else insertA acc rid
              { name := nm, nspace := ns, addresses := addrs, ports := pd })
        acc) k = some e →
      lookupA acc k = some e ∨
        (e.addresses ≠ [] ∧ ∀ a ∈ e.addresses, 0 < a.size) := by
  intro subsets
  induction subsets with
  | nil =>
    intro acc k e h
    exact Or.inl h
  | cons s rest ih =>
    intro acc k e h
    simp only [List.foldl_cons] at h
    rcases ih _ k e h with h1 | h1
    · by_cases ha : subsetAddresses s = []
      · rw [if_pos ha] at h1
        exact Or.inl h1
      · rw [if_neg ha] at h1
        by_cases hpd : subsetPortDict s = []
        · rw [if_pos hpd] at h1
          exact Or.inl h1
        · rw [if_neg hpd] at h1
          by_cases hk : k = rid
          · subst hk
            rw [lookupA_insertA_self] at h1
            cases h1
            refine Or.inr ⟨ha, ?_⟩
            intro a hmem
            have := (List.mem_filter.mp hmem).2
            simpa using this
          · rw [lookupA_insertA_ne _ _ hk] at h1
            exact Or.inl h1
    · exact Or.inr h1

/-- C4 (amended): for every Endpoints subset, an address is collected
exactly when its built addr dict is nonempty, that is when it carries at
least one of ip, node name, or a targetRef field; a subset with zero
collected addresses writes no side-table entry, so every entry the decoder
writes has a nonempty address list whose members each carry at least one
saved key. -/
theorem c4_collected_addrs_nonempty (enable : Bool)
    (eps : List (String × EpEntry)) (obj : EndpointsObj) (k : String) (e : EpEntry)
    (h : lookupA (handleK8sEndpoints enable eps obj) k = some e) :
    lookupA eps k = some e ∨
      (e.addresses ≠ [] ∧ ∀ a ∈ e.addresses, 0 < a.size) := by
  obtain ⟨mdo, subs⟩ := obj
  unfold handleK8sEndpoints at h
  by_cases hen : enable
  · rw [if_neg (by simp [hen])] at h
    cases mdo with
    | none => exact Or.inl h
    | some md =>
      obtain ⟨nmo, nso⟩ := md
      cases nmo with
      | none => exact Or.inl h
      | some nm =>
        dsimp only at h
        by_cases hblank : nm = ""
        · rw [if_pos hblank] at h
          exact Or.inl h
        · rw [if_neg hblank] at h
          by_cases hsub : subs = []
          · rw [if_pos hsub] at h
            exact Or.inl h
          · rw [if_neg hsub] at h
            exact handleK8sEndpoints_fold_aux nm (nso.getD "default") _ subs eps k e h
  · rw [if_pos (by simp [hen])] at h
    exact Or.inl h

/-- C4 amended witness: the node-only address survives with one saved key
and its entry is written. -/
theorem c4_collected_addrs_nonempty_witness :
    lookupA [] "svc.default"
      = some ({ name := "svc", nspace := "default"
                addresses := [{ ip := none, node := some "n", target_kind := none
                                target_name := none, target_namespace := none }]
                ports := [("8080", 8080)] } : EpEntry) ∨
    (({ name := "svc", nspace := "default"
        addresses := [{ ip := none, node := some "n", target_kind := none
                        target_name := none, target_namespace := none }]
        ports := [("8080", 8080)] } : EpEntry).addresses ≠ [] ∧
      ∀ a ∈ ({ name := "svc", nspace := "default"
               addresses := [{ ip := none, node := some "n", target_kind := none
                               target_name := none, target_namespace := none }]
               ports := [("8080", 8080)] } : EpEntry).addresses, 0 < a.size) :=
  c4_collected_addrs_nonempty true []
    { metadata := some { name := some "svc", nspace := none }
      subsets := [{ addresses := [{ ip := none, nodeName := some "n"
                                    targetRef := none }]
                    ports := [{ name := none, port := some 8080
                                protocol := none }] }] }
    "svc.default"
    { name := "svc", nspace := "default"
      addresses := [{ ip := none, node := some "n", target_kind := none
                      target_name := none, target_namespace := none }]
      ports := [("8080", 8080)] }
    (by decide)

end RF

namespace RF

theorem processObject_error_iff (goodId : Obj → Bool)
    (fromDict : String → Obj → Except String ACRes) (st : FState) (pobj : PyObj)
    (rkey : Option String) :
    (∃ e, processObject goodId fromDict st pobj rkey = .error e) ↔
      isAbortObj goodId pobj = true := by
  cases pobj with
  | nondict => simp [processObject, isAbortObj]
  | dict o =>
    obtain ⟨kindo, nameo, srco⟩ := o
    by_cases hg : goodId ⟨kindo, nameo, srco⟩ = true
    · cases kindo with
      | none => simp [processObject, isAbortObj, hg]
      | some knd =>
        by_cases hprag : knd = "Pragma"
        · subst hprag
          simp [processObject, isAbortObj, hg]
        · by_cases hsvc : knd = "Service"
          · subst hsvc
            cases nameo with
            | none => simp [processObject, isAbortObj, hg]
            | some nm => simp [processObject, isAbortObj, hg]
          · cases hfd : fromDict (rkeyFor st rkey) ⟨some knd, nameo, srco⟩ with
            | ok r => simp [processObject, isAbortObj, hg, hprag, hsvc, hfd]
            | error e => simp [processObject, isAbortObj, hg, hprag, hsvc, hfd]
    · have hg' : goodId ⟨kindo, nameo, srco⟩ = false := by
        cases hv : goodId ⟨kindo, nameo, srco⟩
        · rfl
        · exact absurd hv hg
      simp [processObject, isAbortObj, hg']

theorem processObject_ok_saved (goodId : Obj → Bool)
    (fromDict : String → Obj → Except String ACRes) (st : FState) (pobj : PyObj)
    (rkey : Option String) (s2 : FState)
    (h : processObject goodId fromDict st pobj rkey = .ok s2) :
    s2.saved = st.saved := by
  revert h
  unfold processObject
  dsimp only
  repeat' split
  all_goals intro h
  all_goals first
    | exact Except.noConfusion h
    | (injection h with h2; rw [← h2])

theorem processObject_ok_of_no_abort (goodId : Obj → Bool)
    (fromDict : String → Obj → Except String ACRes) (st : FState) (pobj : PyObj)
    (rkey : Option String) (hna : isAbortObj goodId pobj = false) :
    ∃ s2, processObject goodId fromDict st pobj rkey = .ok s2 ∧ s2.saved = st.saved := by
  cases hres : processObject goodId fromDict st pobj rkey with
  | error e =>
    exfalso
    have : isAbortObj goodId pobj = true :=
      (processObject_error_iff goodId fromDict st pobj rkey).mp ⟨e, hres⟩
    rw [hna] at this
    cases this
  | ok s2 =>
    exact ⟨s2, rfl, processObject_ok_saved goodId fromDict st pobj rkey s2 hres⟩

theorem foldObjs_ok_of_no_abort (goodId : Obj → Bool)
    (fromDict : String → Obj → Except String ACRes) (rkey : Option String) :
    ∀ (objs : List PyObj) (s : FState),
      (∀ p ∈ objs, isAbortObj goodId p = false) →
      ∃ s2, objs.foldlM (fun s obj => do
          let s3 ← processObject goodId fromDict s obj rkey
          pure { s3 with ocount := s3.ocount + 1 }) s = Except.ok s2 ∧
        s2.saved = s.saved := by
  intro objs
  induction objs with
  | nil =>
    intro s _
    exact ⟨s, rfl, rfl⟩
  | cons p rest ih =>
    intro s hna
    obtain ⟨s2, hs2, hsv⟩ := processObject_ok_of_no_abort goodId fromDict s p rkey
      (hna p (List.mem_cons_self _ _))
    obtain ⟨s3, hs3, hsv3⟩ := ih { s2 with ocount := s2.ocount + 1 }
      (fun q hq => hna q (List.mem_cons_of_mem _ hq))
    refine ⟨s3, ?_, by simpa [hsv3] using hsv⟩
    simp only [List.foldlM_cons, hs2, Except.bind, bind, pure, Except.pure]
    exact hs3

theorem foldObjs_error_of_abort (goodId : Obj → Bool)
    (fromDict : String → Obj → Except String ACRes) (rkey : Option String) :
    ∀ (objs : List PyObj) (s : FState),
      (∃ p ∈ objs, isAbortObj goodId p = true) →
      ∃ e, objs.foldlM (fun s obj => do
          let s3 ← processObject goodId fromDict s obj rkey
          pure { s3 with ocount := s3.ocount + 1 }) s = Except.error e := by
  intro objs
  induction objs with
  | nil =>
    intro s h
    simp at h
  | cons p rest ih =>
    intro s hab
    by_cases hp : isAbortObj goodId p = true
    · obtain ⟨e, he⟩ := (processObject_error_iff goodId fromDict s p rkey).mpr hp
      refine ⟨e, ?_⟩
      simp only [List.foldlM_cons, he, Except.bind, bind]
    · have hp' : isAbortObj goodId p = false := by
        cases hv : isAbortObj goodId p
        · rfl
        · exact absurd hv hp
      obtain ⟨s2, hs2, _⟩ := processObject_ok_of_no_abort goodId fromDict s p rkey hp'
      have htail : ∃ q ∈ rest, isAbortObj goodId q = true := by
        rcases hab with ⟨q, hq, hqa⟩
        rcases List.mem_cons.mp hq with rfl | hq
        · exact absurd hqa hp
        · exact ⟨q, hq, hqa⟩
      obtain ⟨e, he⟩ := ih { s2 with ocount := s2.ocount + 1 } htail
      refine ⟨e, ?_⟩
      simp only [List.foldlM_cons, hs2, Except.bind, bind, pure, Except.pure]
      exact he

/-- C5 (amended): within one parse_object batch of application resources,
an exception raised while constructing a resource (any outcome of the
fromDict function) is caught and never aborts the batch; the batch aborts
exactly when it contains a field bag that passes the ambassador-id filter,
has kind Service, and lacks a name key, whose subscript raises the one
uncaught exception of per-object processing. -/
theorem c5_batch_abort_iff (goodId : Obj → Bool)
    (fromDict : String → Obj → Except String ACRes) (objs : List PyObj)
    (rkey filename : Option String) (st : FState) :
    (∃ st2, parseObject goodId fromDict objs rkey filename st = .ok st2) ↔
      ∀ p ∈ objs, isAbortObj goodId p = false := by
  constructor
  · intro hok
    by_contra hab
    push_neg at hab
    rcases hab with ⟨p, hp, hpa⟩
    have hpa' : isAbortObj goodId p = true := by
      cases hv : isAbortObj goodId p
      · exact absurd hv hpa
      · rfl
    obtain ⟨e, he⟩ := foldObjs_error_of_abort goodId fromDict rkey objs
      { st with saved := (st.filename, st.ocount) :: st.saved
                filename := filename, ocount := 1 } ⟨p, hp, hpa'⟩
    rcases hok with ⟨st2, hst2⟩
    unfold parseObject at hst2
    dsimp only at hst2
    rw [he] at hst2
    simp [bind, Except.bind] at hst2
  · intro hna
    obtain ⟨s2, hs2, hsv⟩ := foldObjs_ok_of_no_abort goodId fromDict rkey objs
      { st with saved := (st.filename, st.ocount) :: st.saved
                filename := filename, ocount := 1 } hna
    refine ⟨{ s2 with filename := st.filename, ocount := st.ocount
                      saved := st.saved }, ?_⟩
    unfold parseObject
    dsimp only
    rw [hs2]
    simp only [bind, Except.bind, hsv, pure, Except.pure]

/-- C5 counterexample: a batch holding a Service object without a name and
then a Mapping object aborts at the first object with a KeyError, and the
Mapping is never processed; processing the Mapping alone appends one
element. The claim that no exception aborts the remaining batch therefore
fails on the code. -/
theorem c5_counterexample :
    parseObject (fun _ => true) (fun rk o => .ok { rkey := rk, obj := o })
        [PyObj.dict { kind := some "Service", name := none, source := none },
         PyObj.dict { kind := some "Mapping", name := some "m", source := none }]
        none (some "f") initFState
      = .error "KeyError: name" ∧
    (parseObject (fun _ => true) (fun rk o => .ok { rkey := rk, obj := o })
        [PyObj.dict { kind := some "Mapping", name := some "m", source := none }]
        none (some "f") initFState).map (fun s => s.elements.length)
      = .ok 1 := by
  constructor
  · rfl
  · rfl

end RF

namespace RF

theorem servicesAfter_eq (s : FState) :
    servicesAfter s = insertKVs s.services (k8sResolvedKVs s) := by
  unfold servicesAfter insertKVs k8sResolvedKVs
  rw [List.foldl_map]

/-- C8: the finalize pass is a deterministic function of the side tables,
and running it a second time on the tables as the first run left them
(k8s_services and k8s_endpoints untouched, the services table already
holding the resolved entries) emits exactly the same resolved Service
resources in the same order: the second run recomputes identical k8s
entries and overwrites them in place. The hypothesis asks the emitted
k8s resource keys to be pairwise distinct, which holds whenever distinct
side-table entries yield distinct k8s-name-namespace keys. -/
theorem c8_finalize_idempotent (s : FState)
    (hnd : ((k8sResolvedKVs s).map Prod.fst).Nodup) :
    finalizeEmitted (finalizeF s) = finalizeEmitted s := by
  have h1 : servicesAfter (finalizeF s) = servicesAfter s := by
    rw [servicesAfter_eq (finalizeF s)]
    have h2 : (finalizeF s).services = servicesAfter s := rfl
    have h3 : k8sResolvedKVs (finalizeF s) = k8sResolvedKVs s := rfl
    rw [h2, h3]
    apply insertKVs_of_lookupA
    intro kv hkv
    rw [servicesAfter_eq s]
    exact lookupA_insertKVs_of_nodup hnd kv hkv
  unfold finalizeEmitted
  rw [h1]

/-- C8 witness: a state with one Kubernetes service, one directly declared
Service and no endpoints emits the same two resolved resources when
finalized twice. -/
theorem c8_finalize_idempotent_witness :
    finalizeEmitted (finalizeF
      { elements := []
        services := [("bar", SvcVal.direct ⟨some "Service", some "bar", none⟩)]
        k8sServices := [("foo.default", ⟨"foo", "default", [⟨some (PVal.vint 80), none, none⟩]⟩)]
        k8sEndpoints := [], filename := none, ocount := 1, saved := [] })
      = finalizeEmitted
      { elements := []
        services := [("bar", SvcVal.direct ⟨some "Service", some "bar", none⟩)]
        k8sServices := [("foo.default", ⟨"foo", "default", [⟨some (PVal.vint 80), none, none⟩]⟩)]
        k8sEndpoints := [], filename := none, ocount := 1, saved := [] } :=
  c8_finalize_idempotent
    { elements := []
      services := [("bar", SvcVal.direct ⟨some "Service", some "bar", none⟩)]
      k8sServices := [("foo.default", ⟨"foo", "default", [⟨some (PVal.vint 80), none, none⟩]⟩)]
      k8sEndpoints := [], filename := none, ocount := 1, saved := [] }
    (by decide)

/-- C7 (amended): decoder-appended elements always precede
finalizer-appended elements, and the finalizer group appears in
services-table insertion order: the entries already in the table (directly
declared Service objects and Consul services, in their own insertion
order) come first, and the Kubernetes-resolved services follow in
k8s_services side-table order; this interleaves the two sources out of
global encounter order whenever a Kubernetes service was seen before a
direct or Consul one. The hypotheses say the emitted k8s keys are distinct
and fresh, the no-collision case. -/
theorem c7_output_order (s : FState)
    (hnd : ((k8sResolvedKVs s).map Prod.fst).Nodup)
    (hfresh : ∀ k ∈ (k8sResolvedKVs s).map Prod.fst, lookupA s.services k = none) :
    (finalizeF s).elements =
      s.elements ++ (s.services ++ k8sResolvedKVs s).map
        (fun kv => Element.svcres kv.1 kv.2) := by
  have hsa : servicesAfter s = s.services ++ k8sResolvedKVs s := by
    rw [servicesAfter_eq]
    exact insertKVs_fresh_append hnd hfresh
  show s.elements ++ finalizeEmitted s = _
  unfold finalizeEmitted
  rw [hsa]

/-- C7 amended witness: with one Kubernetes service and one direct Service
in the tables, the finalize output is the old elements followed by the
direct service and then the resolved Kubernetes service. -/
theorem c7_output_order_witness :
    (finalizeF
      { elements := []
        services := [("bar", SvcVal.direct ⟨some "Service", some "bar", none⟩)]
        k8sServices := [("foo.default", ⟨"foo", "default", [⟨some (PVal.vint 80), none, none⟩]⟩)]
        k8sEndpoints := [], filename := none, ocount := 1, saved := [] }).elements =
      ([] : List Element) ++
        (([("bar", SvcVal.direct ⟨some "Service", some "bar", none⟩)] ++
          k8sResolvedKVs
            { elements := []
              services := [("bar", SvcVal.direct ⟨some "Service", some "bar", none⟩)]
              k8sServices := [("foo.default", ⟨"foo", "default", [⟨some (PVal.vint 80), none, none⟩]⟩)]
              k8sEndpoints := [], filename := none, ocount := 1, saved := [] }).map
          (fun kv => Element.svcres kv.1 kv.2)) :=
  c7_output_order
    { elements := []
      services := [("bar", SvcVal.direct ⟨some "Service", some "bar", none⟩)]
      k8sServices := [("foo.default", ⟨"foo", "default", [⟨some (PVal.vint 80), none, none⟩]⟩)]
      k8sEndpoints := [], filename := none, ocount := 1, saved := [] }
    (by decide) (by decide)

/-- C7 counterexample: a Kubernetes Service foo is decoded first (filling
the k8s_services side table), a direct kind Service object bar is
processed second (filling the services table); finalize then emits bar
before the resolved k8s-foo-default, so within the finalizer group the
resources do not appear in the order their source objects were
encountered. -/
theorem c7_counterexample :
    ((processObject (fun _ => true) (fun rk o => .ok { rkey := rk, obj := o })
        (handleK8sService false "default" initFState
          { metadata := some { name := some "foo", nspace := none, ann := none }
            specPorts := some [{ port := some (PVal.vint 80), name := none
                                 targetPort := none }] }).1
        (PyObj.dict { kind := some "Service", name := some "bar", source := none })
        (some "rk")).map
      (fun s2 => (finalizeF s2).elements.map Element.key))
      = .ok ["bar", "k8s-foo-default"] ∧
    (["bar", "k8s-foo-default"] : List String) ≠ ["k8s-foo-default", "bar"] := by
  constructor
  · rfl
  · decide

/-- C9 (code bug): the skip diagnostic for a Consul endpoint missing its
address info subscripts the endpoint ID (line 617), so an endpoint lacking
both Address and ID raises a KeyError that aborts the decoder instead of
being skipped individually; with an ID present the endpoint is skipped as
documented. -/
theorem c9_consul_id_keyerror :
    handleConsulService "k"
        { Endpoints := [{ Address := none, Port := some 9000, ID := none }]
          Service := none, Id := none }
      = .error "KeyError: ID" ∧
    handleConsulService "k"
        { Endpoints := [{ Address := none, Port := some 9000, ID := some "e1" }]
          Service := none, Id := none }
      = .ok (some ("consul-k-dc1",
          { name := "k", datacenter := "dc1", endpoints := [] })) := by
  constructor
  · rfl
  · rfl

end RF
